import Mathlib

/-!
Verification of the AnimalRepel-System repository: a shallow embedding of
the two scripts (`Load_Model.py`, the dataset-collection tool, and
`test.py`, the diagnostic runner) together with theorems settling the
specification's claims about them.
-/

namespace AnimalRepel

/-! ## Dataset Collector (`Load_Model.py`) -/

/-- `DATA_DIR = "./training_data"` from `Load_Model.py`. -/
def DATA_DIR : String := "./training_data"

/-- Observable state of the collector: the `buzzer_class` global
(`None` or a class name), the directory names that exist under
`DATA_DIR`, and the image files as (directory name, file name) pairs. -/
structure CollectorState where
  buzzerClass : Option String
  dirs : List String
  files : List (String × String)
deriving Repr, DecidableEq

/-- At module start `buzzer_class = None` and nothing has been captured. -/
def initialState : CollectorState :=
  { buzzerClass := none, dirs := [], files := [] }

/-- Camera lifecycle events emitted by the collector. -/
inductive CamEvent
  | start
  | captureFile (name : String)
  | stop
deriving Repr, DecidableEq

/-- `filename = f"capture_{timestamp}.jpg"` in `take_photos_continuous`. -/
def captureFilename (ts : String) : String := "capture_" ++ ts ++ ".jpg"

/-- The capture loop body of `take_photos_continuous`, driven by the
sequence of capture attempts the environment supplies: each attempt
either yields a timestamp or raises. Returns the emitted camera events,
the list of captured file names, and the first raised error if any
(the loop stops at the first exception). -/
def captureLoop : List (Except String String) → List CamEvent × List String × Option String
  | [] => ([], [], none)
  | Except.ok ts :: rest =>
      let r := captureLoop rest
      (CamEvent.captureFile (captureFilename ts) :: r.1,
       captureFilename ts :: r.2.1, r.2.2)
  | Except.error m :: _ => ([], [], some m)

/-- `take_photos_continuous`: starts the camera, runs the capture loop
inside `try`, and stops the camera in the `finally` block, so the stop
event is emitted whether the loop finished or raised; a raised exception
propagates as the `Except.error` result. -/
def take_photos_continuous (attempts : List (Except String String)) :
    List CamEvent × Except String (List String) :=
  let r := captureLoop attempts
  (CamEvent.start :: r.1 ++ [CamEvent.stop],
   match r.2.2 with
   | none => Except.ok r.2.1
   | some m => Except.error m)

/-- `flag = 'dang' if buzzer_class == cls_name else 'ndan'` in
`capture_images` (`buzzer_class` may be `None`, which equals no string). -/
def flagString (buzzerClass : Option String) (cls : String) : String :=
  if buzzerClass = some cls then "dang" else "ndan"

/-- The directory name `f"{cls_name}_{flag}"` created under `DATA_DIR`. -/
def classDirName (cls flag : String) : String := cls ++ "_" ++ flag

/-- `capture_images`: rejects an empty class name; otherwise computes the
flag from the current `buzzer_class`, ensures the class directory exists,
runs the capture burst, and on success moves every captured file into the
class directory under the name `f"{cls_name}{flag}{basename}"`. An
exception from the burst propagates before any file is moved. -/
def capture_images (cls : String) (attempts : List (Except String String))
    (st : CollectorState) : CollectorState × List CamEvent × Except String Unit :=
  if cls = "" then (st, [], Except.ok ())
  else
    let flag := flagString st.buzzerClass cls
    let dir := classDirName cls flag
    let st1 : CollectorState :=
      { st with dirs := if dir ∈ st.dirs then st.dirs else st.dirs ++ [dir] }
    let r := take_photos_continuous attempts
    match r.2 with
    | Except.error m => (st1, r.1, Except.error m)
    | Except.ok moved =>
        ({ st1 with files := st1.files ++ moved.map (fun f => (dir, cls ++ flag ++ f)) },
         r.1, Except.ok ())

/-- `flag_class`: rejects an empty class name, otherwise overwrites the
single `buzzer_class` slot. -/
def flag_class (cls : String) (st : CollectorState) : CollectorState :=
  if cls = "" then st else { st with buzzerClass := some cls }

/-- Menu option 3: report the current buzzer class; the state is only read. -/
def view_buzzer_class (st : CollectorState) : String × CollectorState :=
  (match st.buzzerClass with
   | some c => "Current buzzer class: " ++ c
   | none => "No class currently flagged for buzzer.", st)

/-- Menu option 5, `preview_camera`: start, hold, stop; no state change. -/
def preview_camera (st : CollectorState) : List CamEvent × CollectorState :=
  ([CamEvent.start, CamEvent.stop], st)

/-- `leadsWith n h`: the character list `h` begins with `n`. -/
def leadsWith : List Char → List Char → Bool
  | [], _ => true
  | _ :: _, [] => false
  | a :: as, b :: bs => a == b && leadsWith as bs

/-- `occursIn n h`: `n` occurs as a contiguous run somewhere in `h`;
this is Python's substring test `n in h`. -/
def occursIn (n : List Char) : List Char → Bool
  | [] => n.isEmpty
  | c :: rest => leadsWith n (c :: rest) || occursIn n rest

/-- `h` ends with the character list `suf`. -/
def endsWithChars (suf h : List Char) : Bool := leadsWith suf.reverse h.reverse

/-- The census marker: `"⚠ " if "_dang" in folder else "✓ "` from
`list_captured_data`. -/
def folderMark (folder : String) : String :=
  if occursIn "_dang".data folder.data then "⚠ " else "✓ "

/-- Count of `.jpg` files of folder `d` in the collector state. -/
def countJpg (st : CollectorState) (d : String) : Nat :=
  (st.files.filter (fun p => p.1 == d && endsWithChars ".jpg".data p.2.data)).length

/-- Menu option 4, `list_captured_data`: for every folder a line with its
danger marker, name and `.jpg` count; the state is only read. -/
def list_captured_data (st : CollectorState) :
    List (String × String × Nat) × CollectorState :=
  (st.dirs.map (fun d => (folderMark d, d, countJpg st d)), st)

/-- Invariant of the `buzzer_class` slot: empty, or exactly one non-empty
class name. -/
def flagInv (st : CollectorState) : Prop :=
  st.buzzerClass = none ∨ ∃ c, st.buzzerClass = some c ∧ c ≠ ""

/-! ## Decimal printing, as Python's `str`/f-string formatting of an int -/

/-- The character of a decimal digit `d < 10`. -/
def digitChar (d : Nat) : Char := Char.ofNat (48 + d)

/-- The decimal digits of `n`, least significant first. -/
def toDigitsRev (n : Nat) : List Char :=
  if h : n < 10 then [digitChar n]
  else digitChar (n % 10) :: toDigitsRev (n / 10)
decreasing_by exact Nat.div_lt_self (by omega) (by omega)

/-- The decimal representation of `n`, most significant digit first. -/
def natRepr (n : Nat) : List Char := (toDigitsRev n).reverse

/-- The decimal representation of `n` as a string. -/
def natStr (n : Nat) : String := ⟨natRepr n⟩

/-! ## Diagnostic Runner (`test.py`) -/

/-- The default class-index map synthesized in TEST 4 when
`class_indices.json` is absent: `{"dang": 0, "ndan": 1}` when the model
has exactly two classes, else `{f"class_{i}": i for i in range(num_classes)}`. -/
def synthesizeClassIndices (n : Nat) : List (String × Nat) :=
  if n = 2 then [("dang", 0), ("ndan", 1)]
  else (List.range n).map (fun i => ("class_" ++ natStr i, i))

/-- JSON serialization of one map entry, `"key": value`. -/
def serializeEntry (e : String × Nat) : List Char :=
  '"' :: e.1.data ++ '"' :: ':' :: ' ' :: natRepr e.2

/-- JSON serialization of the entry sequence, separated by `,\n  ` as
`json.dump(..., indent=2)` produces. -/
def serializeEntries : List (String × Nat) → List Char
  | [] => []
  | [e] => serializeEntry e
  | e :: f :: rest =>
      serializeEntry e ++ ',' :: '\n' :: ' ' :: ' ' :: serializeEntries (f :: rest)

/-- The full file content `json.dump(class_indices, f, indent=2)` writes:
`{}` for an empty map, else `{\n  entries\n}`. -/
def serializeClassIndices : List (String × Nat) → List Char
  | [] => ['{', '}']
  | e :: rest => '{' :: '\n' :: ' ' :: ' ' :: (serializeEntries (e :: rest) ++ ['\n', '}'])

/-- JSON whitespace. -/
def isWs (c : Char) : Bool := c == ' ' || c == '\n' || c == '\t' || c == '\r'

/-- Skip leading whitespace. -/
def skipWs (cs : List Char) : List Char := cs.dropWhile isWs

/-- Decimal digit character test. -/
def isDig (c : Char) : Bool := 48 ≤ c.toNat && c.toNat ≤ 57

/-- Numeric value of a digit character. -/
def digVal (c : Char) : Nat := c.toNat - 48

/-- Parse a JSON string literal (the escape-free fragment used for class
names): a `"` followed by the contents up to the closing `"`. -/
def parseStringLit : List Char → Option (String × List Char)
  | c :: rest =>
      if c = '"' then
        match rest.dropWhile (fun x => x != '"') with
        | _ :: rest2 => some (⟨rest.takeWhile (fun x => x != '"')⟩, rest2)
        | [] => none
      else none
  | [] => none

/-- Parse a JSON non-negative integer: a non-empty run of digits. -/
def parseNatLit (cs : List Char) : Option (Nat × List Char) :=
  let ds := cs.takeWhile isDig
  if ds.isEmpty then none
  else some (ds.foldl (fun a c => 10 * a + digVal c) 0, cs.dropWhile isDig)

/-- Parse a non-empty comma-separated sequence of `"key": value` members,
fuelled by the input length. -/
def parseMembers : Nat → List Char → Option (List (String × Nat) × List Char)
  | 0, _ => none
  | fuel + 1, cs =>
      match parseStringLit cs with
      | none => none
      | some (k, cs1) =>
          match skipWs cs1 with
          | c :: cs2 =>
              if c = ':' then
                match parseNatLit (skipWs cs2) with
                | none => none
                | some (v, cs3) =>
                    match skipWs cs3 with
                    | c2 :: cs4 =>
                        if c2 = ',' then
                          match parseMembers fuel (skipWs cs4) with
                          | some (rest, cs5) => some ((k, v) :: rest, cs5)
                          | none => none
                        else some ([(k, v)], c2 :: cs4)
                    | [] => some ([(k, v)], [])
              else none
          | [] => none

/-- Parse a flat JSON object of string keys and integer values — the
shape `json.load` yields for `class_indices.json`. -/
def parseClassIndices (cs : List Char) : Option (List (String × Nat)) :=
  match skipWs cs with
  | c :: cs1 =>
      if c = '{' then
        match skipWs cs1 with
        | c2 :: cs2 =>
            if c2 = '}' then if (skipWs cs2).isEmpty then some [] else none
            else
              match parseMembers ((c2 :: cs2).length + 1) (c2 :: cs2) with
              | some (m, cs3) =>
                  match cs3 with
                  | c3 :: cs4 =>
                      if c3 = '}' then if (skipWs cs4).isEmpty then some m else none
                      else none
                  | [] => none
              | none => none
        | [] => none
      else none
  | [] => none

/-- Characters admissible in the class names this repository writes into
the side-car file (`dang`, `ndan`, `class_0`, …): letters, digits and
underscore — in particular no quote, backslash or control character, so
`json.dump` writes them verbatim. -/
def goodKeyChar (c : Char) : Bool := c.isAlphanum || c == '_'

/-- A key whose characters are all admissible. -/
def goodKey (k : String) : Bool := k.data.all goodKeyChar

/-- Environment of one diagnostic run: which artifacts exist, how the
side-car file parses, which imports fail, whether the model loads, and
the model's class count. -/
structure DiagEnv where
  modelFileExists : Bool
  sidecarExists : Bool
  sidecarParse : Option (List (String × Nat))
  missingDeps : List String
  modelLoadOk : Bool
  numClasses : Nat

/-- TEST 4 of `test.py`: if `class_indices.json` exists, take its parse
result (`None` after a parse error, which is caught and printed);
otherwise synthesize the default map and write it back to the side-car
file. Returns the resulting `class_indices` and the file content written,
if any. -/
def resolveClassIndices (env : DiagEnv) : Option (List (String × Nat)) × Option (List Char) :=
  if env.sidecarExists then
    match env.sidecarParse with
    | some m => (some m, none)
    | none => (none, none)
  else
    let m := synthesizeClassIndices env.numClasses
    (some m, some (serializeClassIndices m))

/-- The run of `test.py` in which `class_indices.json` exists but is
unparsable: model present, all dependencies installed, model loads with
two classes, and `json.load` raises on the side-car file. -/
def unparsableSidecarEnv : DiagEnv :=
  { modelFileExists := true, sidecarExists := true, sidecarParse := none,
    missingDeps := [], modelLoadOk := true, numClasses := 2 }

/-- Line 134 of `test.py`: `index_to_class = {v: k for k, v in
class_indices.items()}`, executed at top level with no surrounding `try`;
when `class_indices` is `None` this raises an uncaught `AttributeError`. -/
def index_to_class : Option (List (String × Nat)) → Except String (List (Nat × String))
  | none => Except.error "AttributeError: NoneType object has no attribute items"
  | some m => Except.ok (m.map (fun e => (e.2, e.1)))

/-- The checks of the diagnostic runner, in source order. -/
inductive Check
  | files
  | deps
  | modelLoad
  | classIndices
  | buzzer
  | camera
  | inference
  | summary
deriving Repr, DecidableEq

/-- How a diagnostic run ends. -/
inductive DiagOutcome
  | exited (code : Nat)
  | crashed (msg : String)
  | completed
deriving Repr, DecidableEq

/-- The straight-line control flow of `test.py`: TEST 1 exits with status
1 when the model file is absent; TEST 2 exits with status 1 when any
dependency is missing; TEST 3 exits with status 1 when the model fails to
load; TEST 4 resolves the class indices, after which the top-level
inverse-map construction either crashes the script or lets the remaining
checks (buzzer, camera, inference — each wrapped in its own
`try`/`except`) and the summary run to completion. Returns the checks
reached and the outcome. -/
def runDiagnostics (env : DiagEnv) : List Check × DiagOutcome :=
  if env.modelFileExists = false then ([Check.files], DiagOutcome.exited 1)
  else if env.missingDeps ≠ [] then ([Check.files, Check.deps], DiagOutcome.exited 1)
  else if env.modelLoadOk = false then
    ([Check.files, Check.deps, Check.modelLoad], DiagOutcome.exited 1)
  else
    match index_to_class (resolveClassIndices env).1 with
    | Except.error m =>
        ([Check.files, Check.deps, Check.modelLoad, Check.classIndices],
         DiagOutcome.crashed m)
    | Except.ok _ =>
        ([Check.files, Check.deps, Check.modelLoad, Check.classIndices,
          Check.buzzer, Check.camera, Check.inference, Check.summary],
         DiagOutcome.completed)

/-! ## Top-level guard of `Load_Model.py` -/

/-- The names bound at module top level in `Load_Model.py` when line 222
executes (imports, configuration globals, camera objects, the function
definitions, and the interpreter-provided dunder names). -/
def loadModelTopLevelNames : List String :=
  ["os", "shutil", "time", "datetime", "Picamera2", "np", "Image",
   "DATA_DIR", "buzzer_class", "picam2", "camera_config",
   "ensure_data_dir", "take_photos_continuous", "capture_images",
   "flag_class", "show_menu", "preview_camera", "list_captured_data",
   "main", "__name__", "__file__", "__doc__", "__builtins__"]

/-- The name line 222 of `Load_Model.py` actually looks up:
`if _name_ == "_main_":` (single underscores). -/
def scriptGuardName : String := "_name_"

/-- How running `Load_Model.py` as a script ends. -/
inductive ScriptOutcome
  | exitCode (c : Nat)
  | uncaughtNameError (missing : String)
deriving Repr, DecidableEq

/-- Executing `Load_Model.py`: if the guard name resolves, the
`try`/`except KeyboardInterrupt`/`except Exception`/`finally` block
around `main()` catches and prints every error and stops the camera, so
the process exits 0; if the guard name is undefined, evaluating it raises
an uncaught `NameError` at module level and the process dies non-zero
before that block is ever entered. -/
def runLoadModelScript : ScriptOutcome :=
  if scriptGuardName ∈ loadModelTopLevelNames then ScriptOutcome.exitCode 0
  else ScriptOutcome.uncaughtNameError scriptGuardName

/-! ## Helper lemmas -/

theorem captureLoop_stop_not_mem : ∀ attempts, CamEvent.stop ∉ (captureLoop attempts).1
  | [] => by simp [captureLoop]
  | Except.ok ts :: rest => by
      simp only [captureLoop, List.mem_cons]
      rintro (h | h)
      · exact CamEvent.noConfusion h
      · exact captureLoop_stop_not_mem rest h
  | Except.error m :: _ => by simp [captureLoop]

theorem capture_images_buzzerClass (cls : String) (attempts : List (Except String String))
    (st : CollectorState) : (capture_images cls attempts st).1.buzzerClass = st.buzzerClass := by
  unfold capture_images
  split
  · rfl
  · dsimp only
    split <;> rfl

theorem flagInv_of_buzzerClass_eq {st st' : CollectorState}
    (h : st'.buzzerClass = st.buzzerClass) (hst : flagInv st) : flagInv st' := by
  unfold flagInv at *
  rw [h]
  exact hst

theorem leadsWith_append (n : List Char) :
    ∀ h t, leadsWith n h = true → leadsWith n (h ++ t) = true := by
  induction n with
  | nil => intro h t _; rfl
  | cons a as ih =>
      intro h t hl
      cases h with
      | nil => exact absurd hl (by simp [leadsWith])
      | cons b bs =>
          simp only [leadsWith, Bool.and_eq_true] at hl
          simp only [List.cons_append, leadsWith, Bool.and_eq_true]
          exact ⟨hl.1, ih bs t hl.2⟩

theorem occursIn_nil_left : ∀ l, occursIn [] l = true := by
  intro l
  cases l <;> simp [occursIn, leadsWith, List.isEmpty]

theorem occursIn_append (n : List Char) :
    ∀ h t, occursIn n h = true → occursIn n (h ++ t) = true := by
  intro h
  induction h with
  | nil =>
      intro t hl
      have : n = [] := by
        simpa [occursIn, List.isEmpty_iff] using hl
      subst this
      exact occursIn_nil_left t
  | cons c r ih =>
      intro t hl
      simp only [occursIn, Bool.or_eq_true] at hl
      simp only [List.cons_append, occursIn, Bool.or_eq_true]
      rcases hl with hl | hl
      · exact Or.inl (by simpa [List.cons_append] using leadsWith_append n (c :: r) t hl)
      · exact Or.inr (ih t hl)

theorem stringData_append (s t : String) : (s ++ t).data = s.data ++ t.data := rfl

/-! ## Claims -/

/-- C4: flagging is idempotent — `flag_class cls` twice equals once and
leaves `buzzer_class = cls` — and flagging `B` after `A` leaves exactly
`B` flagged, `A` no longer (when `A ≠ B`). -/
theorem flag_class_algebra (A B cls : String) (st : CollectorState)
    (hc : cls ≠ "") (hA : A ≠ "") (hB : B ≠ "") :
    flag_class cls (flag_class cls st) = flag_class cls st ∧
    (flag_class cls st).buzzerClass = some cls ∧
    (flag_class B (flag_class A st)).buzzerClass = some B ∧
    (A ≠ B → (flag_class B (flag_class A st)).buzzerClass ≠ some A) := by
  refine ⟨?_, ?_, ?_, ?_⟩
  · simp [flag_class, hc]
  · simp [flag_class, hc]
  · simp [flag_class, hA, hB]
  · intro hAB
    simp only [flag_class, if_neg hA, if_neg hB]
    intro hcontra
    exact hAB (Option.some_injective _ hcontra).symm

theorem flag_class_algebra_witness :
    flag_class "cat" (flag_class "cat" initialState) = flag_class "cat" initialState ∧
    (flag_class "dog" (flag_class "cat" initialState)).buzzerClass = some "dog" := by
  have h := flag_class_algebra "cat" "dog" "cat" initialState (by decide) (by decide) (by decide)
  exact ⟨h.1, h.2.2.1⟩

/-- C5: `take_photos_continuous` emits the camera-stop event exactly
once, and as its final action, on every run of a capture burst — whether
the loop completed (`Except.ok`) or an exception propagates
(`Except.error`). -/
theorem take_photos_stops_once (attempts : List (Except String String)) :
    List.count CamEvent.stop (take_photos_continuous attempts).1 = 1 ∧
    (take_photos_continuous attempts).1.getLast? = some CamEvent.stop := by
  constructor
  · have h := captureLoop_stop_not_mem attempts
    show List.count CamEvent.stop
        (CamEvent.start :: ((captureLoop attempts).1 ++ [CamEvent.stop])) = 1
    rw [List.count_cons, List.count_append, List.count_eq_zero.mpr h]
    simp
  · show (CamEvent.start :: ((captureLoop attempts).1 ++ [CamEvent.stop])).getLast? =
      some CamEvent.stop
    rw [← List.cons_append, List.getLast?_concat]

/-- C8: the FlagState invariant — `buzzer_class` is empty or exactly one
non-empty class name — holds initially, is preserved by every collector
operation, and flagging an empty input is a no-op. -/
theorem flagInv_preserved :
    flagInv initialState ∧
    (∀ st cls attempts, flagInv st → flagInv (capture_images cls attempts st).1) ∧
    (∀ st cls, flagInv st → flagInv (flag_class cls st)) ∧
    (∀ st, flagInv st →
      flagInv (view_buzzer_class st).2 ∧ flagInv (list_captured_data st).2 ∧
      flagInv (preview_camera st).2) ∧
    (∀ st, flag_class "" st = st) := by
  refine ⟨Or.inl rfl, ?_, ?_, ?_, ?_⟩
  · intro st cls attempts hst
    exact flagInv_of_buzzerClass_eq (capture_images_buzzerClass cls attempts st) hst
  · intro st cls hst
    unfold flag_class
    split
    · exact hst
    · exact Or.inr ⟨cls, rfl, by assumption⟩
  · intro st hst
    exact ⟨hst, hst, hst⟩
  · intro st
    simp [flag_class]

theorem flagInv_preserved_witness : flagInv (flag_class "cat" initialState) :=
  flagInv_preserved.2.2.1 initialState "cat" flagInv_preserved.1

/-- C6: if the model artifact is absent, the diagnostic runner exits with
status 1 immediately after the file check and no later check executes. -/
theorem diag_missing_model_aborts (env : DiagEnv) (h : env.modelFileExists = false) :
    runDiagnostics env = ([Check.files], DiagOutcome.exited 1) ∧
    ∀ c, c ∈ (runDiagnostics env).1 → c = Check.files := by
  have h1 : runDiagnostics env = ([Check.files], DiagOutcome.exited 1) := by
    simp [runDiagnostics, h]
  refine ⟨h1, ?_⟩
  intro c hc
  rw [h1] at hc
  simpa using hc

theorem diag_missing_model_aborts_witness :
    runDiagnostics
        { modelFileExists := false, sidecarExists := false, sidecarParse := none,
          missingDeps := [], modelLoadOk := false, numClasses := 0 } =
      ([Check.files], DiagOutcome.exited 1) :=
  (diag_missing_model_aborts _ rfl).1

/-- C3 (refuting the claim as stated): with an unparsable
`class_indices.json`, `test.py` sets `class_indices = None` — not a
default mapping — and the top-level inverse-map construction then raises
an uncaught `AttributeError`, so the run dies before the buzzer, camera
and inference checks ever execute. -/
theorem diag_unparsable_sidecar_crashes :
    (resolveClassIndices unparsableSidecarEnv).1 = none ∧
    runDiagnostics unparsableSidecarEnv =
      ([Check.files, Check.deps, Check.modelLoad, Check.classIndices],
       DiagOutcome.crashed "AttributeError: NoneType object has no attribute items") ∧
    Check.inference ∉ (runDiagnostics unparsableSidecarEnv).1 := by
  refine ⟨rfl, rfl, ?_⟩
  decide

/-- C9 (refuting the claim as stated): line 222 of `Load_Model.py` reads
`if _name_ == "_main_":`; the name `_name_` is bound nowhere at module
level, so running the script raises an uncaught `NameError` and the
process does not exit 0 — the catch-and-print / camera-cleanup block is
never entered. -/
theorem load_model_guard_name_error :
    runLoadModelScript = ScriptOutcome.uncaughtNameError "_name_" ∧
    runLoadModelScript ≠ ScriptOutcome.exitCode 0 ∧
    scriptGuardName ∉ loadModelTopLevelNames := by
  refine ⟨rfl, by decide, by decide⟩

/-- C1: for a non-empty class name the capture flag is `dang` exactly
when the class equals the current `buzzer_class` (else `ndan`); every
directory and file `capture_images` adds lives under `{cls}_{flag}`; and
a later `flag_class` call changes neither the directories nor the files
already written. -/
theorem capture_images_flag_spec (cls : String) (st : CollectorState)
    (attempts : List (Except String String)) (hcls : cls ≠ "") :
    (flagString st.buzzerClass cls = "dang" ↔ st.buzzerClass = some cls) ∧
    (¬ st.buzzerClass = some cls → flagString st.buzzerClass cls = "ndan") ∧
    (∀ d ∈ (capture_images cls attempts st).1.dirs,
      d ∈ st.dirs ∨ d = classDirName cls (flagString st.buzzerClass cls)) ∧
    (∀ p ∈ (capture_images cls attempts st).1.files,
      p ∈ st.files ∨ p.1 = classDirName cls (flagString st.buzzerClass cls)) ∧
    (∀ b, (flag_class b (capture_images cls attempts st).1).dirs
            = (capture_images cls attempts st).1.dirs ∧
          (flag_class b (capture_images cls attempts st).1).files
            = (capture_images cls attempts st).1.files) := by
  refine ⟨?_, ?_, ?_, ?_, ?_⟩
  · unfold flagString
    split
    · simpa
    · constructor
      · intro h
        exact absurd h (by decide : ("ndan" : String) ≠ "dang")
      · intro h
        exact absurd h (by assumption)
  · intro h
    simp [flagString, h]
  · intro d hd
    revert hd
    unfold capture_images
    rw [if_neg hcls]
    dsimp only
    split <;>
      · intro hd
        simp only at hd
        by_cases hmem : classDirName cls (flagString st.buzzerClass cls) ∈ st.dirs
        · rw [if_pos hmem] at hd
          exact Or.inl hd
        · rw [if_neg hmem] at hd
          rcases List.mem_append.mp hd with h | h
          · exact Or.inl h
          · exact Or.inr (by simpa using h)
  · intro p hp
    revert hp
    unfold capture_images
    rw [if_neg hcls]
    dsimp only
    split
    · intro hp
      exact Or.inl hp
    · intro hp
      rcases List.mem_append.mp hp with h | h
      · exact Or.inl h
      · rcases List.mem_map.mp h with ⟨f, _, rfl⟩
        exact Or.inr rfl
  · intro b
    unfold flag_class
    split <;> exact ⟨rfl, rfl⟩

theorem capture_images_flag_spec_witness :
    ("pipe" ≠ "") ∧
    (flagString (flag_class "wire" initialState).buzzerClass "pipe" = "dang" ↔
      (flag_class "wire" initialState).buzzerClass = some "pipe") ∧
    (¬ (flag_class "wire" initialState).buzzerClass = some "pipe" →
      flagString (flag_class "wire" initialState).buzzerClass "pipe" = "ndan") :=
  ⟨by decide,
   (capture_images_flag_spec "pipe" (flag_class "wire" initialState)
      [Except.ok "t1"] (by decide)).1,
   (capture_images_flag_spec "pipe" (flag_class "wire" initialState)
      [Except.ok "t1"] (by decide)).2.1⟩

/-- C10: the census marks a directory as dangerous exactly when `_dang`
occurs anywhere in its name; hence a class whose own name contains
`_dang`, captured while not flagged, yields a `..._ndan` directory that
is nevertheless marked dangerous. -/
theorem census_dang_marking (folder cls : String) (st : CollectorState)
    (hsub : occursIn "_dang".data cls.data = true)
    (hflag : st.buzzerClass ≠ some cls) :
    (∀ mk d cnt, (mk, d, cnt) ∈ (list_captured_data st).1 →
      (mk = "⚠ " ↔ occursIn "_dang".data d.data = true)) ∧
    (folderMark folder = "⚠ " ↔ occursIn "_dang".data folder.data = true) ∧
    flagString st.buzzerClass cls = "ndan" ∧
    folderMark (classDirName cls (flagString st.buzzerClass cls)) = "⚠ " := by
  have hmark : ∀ f : String, folderMark f = "⚠ " ↔ occursIn "_dang".data f.data = true := by
    intro f
    unfold folderMark
    split
    · simpa
    · constructor
      · intro h
        exact absurd h (by decide)
      · intro h
        exact absurd h (by simp_all)
  have hndan : flagString st.buzzerClass cls = "ndan" := by
    simp [flagString, hflag]
  refine ⟨?_, hmark folder, hndan, ?_⟩
  · intro mk d cnt hmem
    unfold list_captured_data at hmem
    rcases List.mem_map.mp hmem with ⟨d', _, heq⟩
    simp only [Prod.mk.injEq] at heq
    obtain ⟨h1, h2, h3⟩ := heq
    subst h2
    rw [← h1]
    exact hmark d'
  · rw [hndan]
    rw [hmark]
    unfold classDirName
    rw [stringData_append, stringData_append]
    exact occursIn_append _ _ _ (occursIn_append _ _ _ hsub)

theorem census_dang_marking_witness :
    occursIn "_dang".data "x_dang".data = true ∧
    flagString initialState.buzzerClass "x_dang" = "ndan" ∧
    folderMark (classDirName "x_dang" (flagString initialState.buzzerClass "x_dang")) = "⚠ " :=
  ⟨by decide,
   (census_dang_marking "x_dang_ndan" "x_dang" initialState (by decide) (by decide)).2.2.1,
   (census_dang_marking "x_dang_ndan" "x_dang" initialState (by decide) (by decide)).2.2.2⟩

theorem synthesize_map_snd (n : Nat) :
    (synthesizeClassIndices n).map Prod.snd = List.range n := by
  unfold synthesizeClassIndices
  split
  · subst n
    decide
  · rw [List.map_map]
    have hf : (Prod.snd ∘ fun i : Nat => ("class_" ++ natStr i, i)) = id := by
      funext i
      rfl
    rw [hf, List.map_id]

theorem synthesize_map_length (n : Nat) : (synthesizeClassIndices n).length = n := by
  have h := congrArg List.length (synthesize_map_snd n)
  simpa using h

/-- C2: with no side-car file, TEST 4 synthesizes a class-index map with
exactly `numClasses` entries whose indices are `{0, …, N-1}` in order
(`{"dang": 0, "ndan": 1}` when `numClasses = 2`) and writes its JSON
serialization back to the side-car file. -/
theorem synthesized_map_contiguous (env : DiagEnv) (h : env.sidecarExists = false) :
    (resolveClassIndices env).1 = some (synthesizeClassIndices env.numClasses) ∧
    (resolveClassIndices env).2 =
      some (serializeClassIndices (synthesizeClassIndices env.numClasses)) ∧
    (synthesizeClassIndices env.numClasses).length = env.numClasses ∧
    (synthesizeClassIndices env.numClasses).map Prod.snd = List.range env.numClasses ∧
    (env.numClasses = 2 →
      synthesizeClassIndices env.numClasses = [("dang", 0), ("ndan", 1)]) := by
  refine ⟨?_, ?_, synthesize_map_length _, synthesize_map_snd _, ?_⟩
  · simp [resolveClassIndices, h]
  · simp [resolveClassIndices, h]
  · intro h2
    rw [h2]
    decide

theorem digitChar_isDig {d : Nat} (h : d < 10) : isDig (digitChar d) = true := by
  interval_cases d <;> decide

theorem digitChar_digVal {d : Nat} (h : d < 10) : digVal (digitChar d) = d := by
  interval_cases d <;> decide

theorem digitChar_good {d : Nat} (h : d < 10) : goodKeyChar (digitChar d) = true := by
  interval_cases d <;> decide

theorem toDigitsRev_lt {n : Nat} (h : n < 10) : toDigitsRev n = [digitChar n] := by
  rw [toDigitsRev]
  exact dif_pos h

theorem toDigitsRev_ge {n : Nat} (h : ¬ n < 10) :
    toDigitsRev n = digitChar (n % 10) :: toDigitsRev (n / 10) := by
  rw [toDigitsRev]
  exact dif_neg h

theorem toDigitsRev_ne_nil (n : Nat) : toDigitsRev n ≠ [] := by
  by_cases h : n < 10
  · rw [toDigitsRev_lt h]
    simp
  · rw [toDigitsRev_ge h]
    simp

theorem toDigitsRev_all_isDig (n : Nat) : ∀ c ∈ toDigitsRev n, isDig c = true := by
  induction n using Nat.strong_induction_on with
  | _ n ih =>
    by_cases h : n < 10
    · rw [toDigitsRev_lt h]
      intro c hc
      rw [List.mem_singleton] at hc
      subst hc
      exact digitChar_isDig h
    · rw [toDigitsRev_ge h]
      intro c hc
      rcases List.mem_cons.mp hc with rfl | hc'
      · exact digitChar_isDig (Nat.mod_lt _ (by omega))
      · exact ih (n / 10) (Nat.div_lt_self (by omega) (by omega)) c hc'

theorem natRepr_all_isDig (n : Nat) : ∀ c ∈ natRepr n, isDig c = true := by
  intro c hc
  exact toDigitsRev_all_isDig n c (List.mem_reverse.mp hc)

theorem natRepr_ne_nil (n : Nat) : natRepr n ≠ [] := by
  unfold natRepr
  simpa using toDigitsRev_ne_nil n

theorem takeWhile_append_all {p : Char → Bool} :
    ∀ {l r : List Char}, (∀ c ∈ l, p c = true) →
      (l ++ r).takeWhile p = l ++ r.takeWhile p := by
  intro l
  induction l with
  | nil => intro r _; rfl
  | cons a as ih =>
      intro r h
      rw [List.cons_append, List.takeWhile_cons_of_pos (h a (List.mem_cons_self a as)),
        ih (fun c hc => h c (List.mem_cons_of_mem a hc))]
      rfl

theorem dropWhile_append_all {p : Char → Bool} :
    ∀ {l r : List Char}, (∀ c ∈ l, p c = true) →
      (l ++ r).dropWhile p = r.dropWhile p := by
  intro l
  induction l with
  | nil => intro r _; rfl
  | cons a as ih =>
      intro r h
      rw [List.cons_append, List.dropWhile_cons_of_pos (h a (List.mem_cons_self a as)),
        ih (fun c hc => h c (List.mem_cons_of_mem a hc))]

theorem foldl_natRepr (n : Nat) : ∀ a : Nat,
    (natRepr n).foldl (fun a c => 10 * a + digVal c) a
      = a * 10 ^ (natRepr n).length + n := by
  induction n using Nat.strong_induction_on with
  | _ n ih =>
    intro a
    by_cases h : n < 10
    · unfold natRepr
      rw [toDigitsRev_lt h]
      simp only [List.reverse_singleton, List.foldl_cons, List.foldl_nil,
        List.length_singleton, pow_one]
      rw [digitChar_digVal h]
      omega
    · have hda : natRepr n = natRepr (n / 10) ++ [digitChar (n % 10)] := by
        unfold natRepr
        rw [toDigitsRev_ge h, List.reverse_cons]
      rw [hda, List.foldl_append,
        ih (n / 10) (Nat.div_lt_self (by omega) (by omega)) a]
      simp only [List.foldl_cons, List.foldl_nil, List.length_append,
        List.length_singleton]
      rw [digitChar_digVal (Nat.mod_lt _ (by omega)), pow_succ, ← mul_assoc]
      generalize a * 10 ^ (natRepr (n / 10)).length = Z
      omega

theorem parseNatLit_natRepr (n : Nat) (c : Char) (t : List Char) (hc : isDig c = false) :
    parseNatLit (natRepr n ++ c :: t) = some (n, c :: t) := by
  unfold parseNatLit
  rw [takeWhile_append_all (natRepr_all_isDig n),
    dropWhile_append_all (natRepr_all_isDig n),
    List.takeWhile_cons_of_neg (by simp [hc]),
    List.dropWhile_cons_of_neg (by simp [hc]),
    List.append_nil]
  have hne : (natRepr n).isEmpty = false := by
    simp [List.isEmpty_iff, natRepr_ne_nil n]
  simp only [hne, Bool.false_eq_true, if_false]
  rw [foldl_natRepr n 0]
  simp

theorem goodKeyChar_ne_quote {c : Char} (h : goodKeyChar c = true) : (c != '"') = true := by
  rw [bne_iff_ne]
  rintro rfl
  exact absurd h (by decide)

theorem parseStringLit_serial (k : String) (hk : goodKey k = true) (r : List Char) :
    parseStringLit ('"' :: (k.data ++ '"' :: r)) = some (k, r) := by
  have hall : ∀ c ∈ k.data, (c != '"') = true := by
    intro c hc
    unfold goodKey at hk
    exact goodKeyChar_ne_quote (List.all_eq_true.mp hk c hc)
  have hdrop : (k.data ++ '"' :: r).dropWhile (fun x => x != '"') = '"' :: r := by
    rw [dropWhile_append_all hall, List.dropWhile_cons_of_neg (by simp)]
  have htake : (k.data ++ '"' :: r).takeWhile (fun x => x != '"') = k.data := by
    rw [takeWhile_append_all hall, List.takeWhile_cons_of_neg (by simp), List.append_nil]
  simp only [parseStringLit, if_pos rfl, hdrop, htake, if_true]

theorem isDig_not_ws {c : Char} (hd : isDig c = true) : isWs c = false := by
  have hge : 48 ≤ c.toNat := by
    unfold isDig at hd
    simp only [Bool.and_eq_true, decide_eq_true_eq] at hd
    exact hd.1
  unfold isWs
  have h1 : (c == ' ') = false := by
    rw [beq_eq_false_iff_ne]
    rintro rfl
    exact absurd hge (by decide)
  have h2 : (c == '\n') = false := by
    rw [beq_eq_false_iff_ne]
    rintro rfl
    exact absurd hge (by decide)
  have h3 : (c == '\t') = false := by
    rw [beq_eq_false_iff_ne]
    rintro rfl
    exact absurd hge (by decide)
  have h4 : (c == '\r') = false := by
    rw [beq_eq_false_iff_ne]
    rintro rfl
    exact absurd hge (by decide)
  rw [h1, h2, h3, h4]
  rfl

theorem skipWs_cons_of_ws {c : Char} (h : isWs c = true) (l : List Char) :
    skipWs (c :: l) = skipWs l := by
  unfold skipWs
  rw [List.dropWhile_cons_of_pos h]

theorem skipWs_cons_of_not {c : Char} (h : isWs c = false) (l : List Char) :
    skipWs (c :: l) = c :: l := by
  unfold skipWs
  rw [List.dropWhile_cons_of_neg (by simp [h])]

theorem skipWs_colon (l : List Char) : skipWs (':' :: l) = ':' :: l :=
  skipWs_cons_of_not (by decide) l

theorem skipWs_space (l : List Char) : skipWs (' ' :: l) = skipWs l :=
  skipWs_cons_of_ws (by decide) l

theorem skipWs_newline (l : List Char) : skipWs ('\n' :: l) = skipWs l :=
  skipWs_cons_of_ws (by decide) l

theorem skipWs_rbrace (l : List Char) : skipWs ('}' :: l) = '}' :: l :=
  skipWs_cons_of_not (by decide) l

theorem skipWs_comma (l : List Char) : skipWs (',' :: l) = ',' :: l :=
  skipWs_cons_of_not (by decide) l

theorem skipWs_natRepr (n : Nat) (X : List Char) :
    skipWs (natRepr n ++ X) = natRepr n ++ X := by
  rcases hcons : natRepr n with _ | ⟨c, t⟩
  · exact absurd hcons (natRepr_ne_nil n)
  · have hd : isDig c = true := by
      apply natRepr_all_isDig n
      rw [hcons]
      exact List.mem_cons_self c t
    rw [List.cons_append, skipWs_cons_of_not (isDig_not_ws hd)]

theorem parseNatLit_newline (n : Nat) (t : List Char) :
    parseNatLit (natRepr n ++ '\n' :: t) = some (n, '\n' :: t) :=
  parseNatLit_natRepr n '\n' t (by decide)

theorem parseNatLit_comma (n : Nat) (t : List Char) :
    parseNatLit (natRepr n ++ ',' :: t) = some (n, ',' :: t) :=
  parseNatLit_natRepr n ',' t (by decide)

theorem serializeEntries_cons_head (e : String × Nat) (m : List (String × Nat)) :
    ∃ t, serializeEntries (e :: m) = '"' :: t := by
  cases m with
  | nil => exact ⟨_, rfl⟩
  | cons f r => exact ⟨_, rfl⟩

theorem skipWs_serializeEntries (e : String × Nat) (m : List (String × Nat)) (X : List Char) :
    skipWs (serializeEntries (e :: m) ++ X) = serializeEntries (e :: m) ++ X := by
  obtain ⟨t, ht⟩ := serializeEntries_cons_head e m
  rw [ht, List.cons_append, skipWs_cons_of_not (by decide)]

theorem serializeEntries_length_ge :
    ∀ m : List (String × Nat), m.length ≤ (serializeEntries m).length := by
  intro m
  induction m with
  | nil => simp [serializeEntries]
  | cons e tl ih =>
      cases tl with
      | nil =>
          simp [serializeEntries, serializeEntry]
      | cons f r =>
          simp only [serializeEntries, serializeEntry, List.length_cons,
            List.cons_append, List.length_append] at *
          omega

theorem parseMembers_serializeEntries :
    ∀ (m : List (String × Nat)) (e : String × Nat) (fuel : Nat) (tail : List Char),
      goodKey e.1 = true → (∀ x ∈ m, goodKey x.1 = true) →
      parseMembers (fuel + m.length + 1) (serializeEntries (e :: m) ++ '\n' :: '}' :: tail)
        = some (e :: m, '}' :: tail) := by
  intro m
  induction m with
  | nil =>
      intro e fuel tail hk _
      simp only [List.length_nil, Nat.add_zero]
      have hshape : serializeEntries [e] ++ '\n' :: '}' :: tail
          = '"' :: (e.1.data ++ '"' ::
              (':' :: ' ' :: (natRepr e.2 ++ '\n' :: '}' :: tail))) := by
        simp [serializeEntries, serializeEntry]
      rw [hshape]
      simp only [parseMembers, parseStringLit_serial e.1 hk, skipWs_colon,
        skipWs_space, skipWs_natRepr, parseNatLit_newline, skipWs_newline,
        skipWs_rbrace, reduceIte]
      rw [if_neg (by decide : ¬ ('}' : Char) = ',')]
  | cons f rest ih =>
      intro e fuel tail hk hm
      have hf : goodKey f.1 = true := hm f (List.mem_cons_self f rest)
      have hrest : ∀ x ∈ rest, goodKey x.1 = true :=
        fun x hx => hm x (List.mem_cons_of_mem f hx)
      simp only [List.length_cons]
      rw [← Nat.add_assoc]
      have hshape : serializeEntries (e :: f :: rest) ++ '\n' :: '}' :: tail
          = '"' :: (e.1.data ++ '"' ::
              (':' :: ' ' :: (natRepr e.2 ++ ',' :: '\n' :: ' ' :: ' ' ::
                (serializeEntries (f :: rest) ++ '\n' :: '}' :: tail)))) := by
        simp [serializeEntries, serializeEntry]
      rw [hshape]
      rw [parseMembers]
      simp only [parseStringLit_serial e.1 hk, skipWs_colon, skipWs_space,
        skipWs_natRepr, parseNatLit_comma, skipWs_comma, skipWs_newline,
        skipWs_serializeEntries, reduceIte]
      rw [ih f fuel tail hf hrest]

theorem skipWs_lbrace (l : List Char) : skipWs ('{' :: l) = '{' :: l :=
  skipWs_cons_of_not (by decide) l

theorem parse_serialize_good (m : List (String × Nat))
    (hm : ∀ x ∈ m, goodKey x.1 = true) :
    parseClassIndices (serializeClassIndices m) = some m := by
  cases m with
  | nil => rfl
  | cons e tl =>
      have hk : goodKey e.1 = true := hm e (List.mem_cons_self e tl)
      have htl : ∀ x ∈ tl, goodKey x.1 = true :=
        fun x hx => hm x (List.mem_cons_of_mem e hx)
      obtain ⟨t, ht⟩ := serializeEntries_cons_head e tl
      have hlen : tl.length + 1 ≤ (serializeEntries (e :: tl)).length := by
        simpa using serializeEntries_length_ge (e :: tl)
      unfold parseClassIndices
      simp only [serializeClassIndices]
      rw [skipWs_lbrace]
      simp only [skipWs_newline, skipWs_space, skipWs_serializeEntries, reduceIte]
      rw [ht]
      simp only [List.cons_append]
      rw [if_neg (by decide : ¬ ('"' : Char) = '}')]
      have hin : ('"' : Char) :: (t ++ ['\n', '}'])
          = serializeEntries (e :: tl) ++ '\n' :: '}' :: [] := by
        rw [ht]
        rfl
      rw [hin]
      have hfuel : (serializeEntries (e :: tl) ++ '\n' :: '}' :: ([] : List Char)).length + 1
          = ((serializeEntries (e :: tl)).length + 2 - tl.length) + tl.length + 1 := by
        simp only [List.length_append, List.length_cons, List.length_nil]
        omega
      rw [hfuel, parseMembers_serializeEntries tl e _ [] hk htl]
      rfl

theorem synthesize_goodKeys (n : Nat) :
    ∀ x ∈ synthesizeClassIndices n, goodKey x.1 = true := by
  unfold synthesizeClassIndices
  split
  · intro x hx
    rcases List.mem_cons.mp hx with rfl | hx'
    · decide
    · rcases List.mem_cons.mp hx' with rfl | hx''
      · decide
      · exact absurd hx'' (List.not_mem_nil x)
  · intro x hx
    rcases List.mem_map.mp hx with ⟨i, _, rfl⟩
    show goodKey ("class_" ++ natStr i) = true
    unfold goodKey
    rw [stringData_append, List.all_append, Bool.and_eq_true]
    constructor
    · decide
    · rw [List.all_eq_true]
      intro c hc
      have hd : isDig c = true := natRepr_all_isDig i c hc
      have : ∃ d, d < 10 ∧ c = digitChar d := by
        unfold isDig at hd
        simp only [Bool.and_eq_true, decide_eq_true_eq] at hd
        refine ⟨c.toNat - 48, by omega, ?_⟩
        unfold digitChar
        have hval : 48 + (c.toNat - 48) = c.toNat := by omega
        rw [hval]
        exact (Char.ofNat_toNat c).symm
      obtain ⟨d, hd10, rfl⟩ := this
      exact digitChar_good hd10

/-- C7: round-trip of the side-car file — serializing the synthesized
class-index map exactly as `json.dump(..., indent=2)` does and re-parsing
the resulting text recovers the identical mapping, for every class
count. -/
theorem sidecar_roundtrip (n : Nat) :
    parseClassIndices (serializeClassIndices (synthesizeClassIndices n)) =
      some (synthesizeClassIndices n) :=
  parse_serialize_good (synthesizeClassIndices n) (synthesize_goodKeys n)

theorem synthesized_map_contiguous_witness :
    (resolveClassIndices
        { modelFileExists := true, sidecarExists := false, sidecarParse := none,
          missingDeps := [], modelLoadOk := true, numClasses := 2 }).1 =
      some (synthesizeClassIndices 2) ∧
    synthesizeClassIndices 2 = [("dang", 0), ("ndan", 1)] :=
  ⟨(synthesized_map_contiguous
      { modelFileExists := true, sidecarExists := false, sidecarParse := none,
        missingDeps := [], modelLoadOk := true, numClasses := 2 } rfl).1,
   (synthesized_map_contiguous
      { modelFileExists := true, sidecarExists := false, sidecarParse := none,
        missingDeps := [], modelLoadOk := true, numClasses := 2 } rfl).2.2.2.2 rfl⟩

end AnimalRepel
